import Mathlib

/-!
Verification of the PDF-lecture-explainer core pipeline against its
natural-language specification.  The definitions below are a shallow
embedding of the Python sources (`utils.py`, `llm_handler.py`, `main.py`):
Python strings are Lean `String` (lists of unicode code points, matching
Python length/slicing semantics), Python `int` is `Int`, Python sets of
page numbers are `Finset ℤ`, and exceptions are `Except String`.
-/

/-! ### Python-style string primitives

Helpers mirroring the Python string operations used by the sources:
`in` (substring test), `str.strip`, `str.split` with a one-character
separator, `str.startswith`, slicing `s[:n]`, and `sep.join`.
-/

/-- `charsStartWith s p` is true when the character list `p` is an initial
segment of `s` (Python `startswith` at the character level). -/
def charsStartWith : List Char → List Char → Bool
  | _, [] => true
  | [], _ :: _ => false
  | a :: as, b :: bs => a == b && charsStartWith as bs

/-- `charsContains pat s` is true when `pat` occurs contiguously inside `s`
(Python `pat in s` at the character level). -/
def charsContains (pat : List Char) : List Char → Bool
  | [] => charsStartWith [] pat
  | c :: rest => charsStartWith (c :: rest) pat || charsContains pat rest

/-- Python `pat in s` on strings. -/
def strContains (s pat : String) : Bool :=
  charsContains pat.data s.data

/-- Python `s.startswith(p)`. -/
def pyStartsWith (s p : String) : Bool :=
  charsStartWith s.data p.data

/-- Python `s.strip()` at the character level: remove whitespace from both
ends (`Char.isWhitespace` models the ASCII whitespace that occurs in this
program's data). -/
def pyStrip (l : List Char) : List Char :=
  ((l.dropWhile Char.isWhitespace).reverse.dropWhile Char.isWhitespace).reverse

/-- Python `s.strip()` on strings. -/
def pyStripS (s : String) : String :=
  String.mk (pyStrip s.data)

/-- Python `s.split(sep)` for a one-character separator, at the character
level.  Like Python, splitting the empty string yields `[[]]`. -/
def splitOneSep (sep : Char) : List Char → List (List Char)
  | [] => [[]]
  | c :: cs =>
    let r := splitOneSep sep cs
    if c = sep then [] :: r
    else
      match r with
      | [] => [[c]]
      | h :: t => (c :: h) :: t

/-- Python `s.split(sep)` for a one-character separator. -/
def pySplit (sep : Char) (s : String) : List String :=
  (splitOneSep sep s.data).map String.mk

/-- Python slicing `s[:n]` for `n ≥ 0`. -/
def pyTake (s : String) (n : Nat) : String :=
  String.mk (s.data.take n)

/-- Python `sep.join(xs)`. -/
def pyJoin (sep : String) : List String → String
  | [] => ""
  | [x] => x
  | x :: y :: xs => x ++ sep ++ pyJoin sep (y :: xs)

/-- Accumulating decimal-digit parser used by `pyInt?`. -/
def parseDigitsAux (acc : Nat) : List Char → Option Nat
  | [] => some acc
  | c :: cs => if c.isDigit then parseDigitsAux (acc * 10 + (c.toNat - 48)) cs else none

/-- Nonempty decimal-digit run parser. -/
def pyNat? : List Char → Option Nat
  | [] => none
  | c :: cs => parseDigitsAux 0 (c :: cs)

/-- Python `int(s)`: strip surrounding whitespace, then an optional sign
followed by a nonempty run of decimal digits; anything else raises
`ValueError`, modelled as `none`.  (Python additionally accepts digit-group
underscores and non-ASCII digits, which never occur in this program.) -/
def pyInt? (s : String) : Option Int :=
  match pyStrip s.data with
  | '+' :: cs => (pyNat? cs).map Int.ofNat
  | '-' :: cs => (pyNat? cs).map (fun n => -(n : Int))
  | cs => (pyNat? cs).map Int.ofNat

/-- Python `list(range(a, b))` over integers. -/
def pyRange (a b : Int) : List Int :=
  (List.range (b - a).toNat).map (fun (i : Nat) => a + (i : Int))

/-! ### `utils.parse_page_range` -/

/-- Python `set.add`: the page set of `parse_page_range` is modelled as a
duplicate-free list; `psInsert` adds an element unless already present.
The internal order is never observed, because the program sorts the set
before returning it. -/
def psInsert (x : ℤ) (l : List ℤ) : List ℤ :=
  if x ∈ l then l else x :: l

/-- Python `set.update(range(start, end + 1))`. -/
def psUpdateRange (start endP : ℤ) (l : List ℤ) : List ℤ :=
  (pyRange start (endP + 1)).foldl (fun acc x => psInsert x acc) l

/-- One iteration of the loop in `utils.parse_page_range`: process a single
comma-separated component, accumulating the set of selected pages.  Mirrors
`utils.py` lines 27-45: strip the component; if it contains `-`, unpack it
as `start-end` (a `split('-')` result with any other arity raises
`ValueError`), convert both bounds with `int`, reject `start < 1` or
`end > total_pages`, and add `range(start, end+1)`; otherwise convert the
single page with `int`, bounds-check it, and add it. -/
def parsePart (totalPages : Int) (pages : List ℤ) (part : String) : Except String (List ℤ) :=
  let p := pyStripS part
  if strContains p "-" = true then
    match pySplit '-' p with
    | [a, b] =>
      match pyInt? a, pyInt? b with
      | some start, some endP =>
        if start < 1 ∨ totalPages < endP then
          Except.error ("页码范围 " ++ toString start ++ "-" ++ toString endP ++
            " 超出范围 (1-" ++ toString totalPages ++ ")")
        else Except.ok (psUpdateRange start endP pages)
      | _, _ => Except.error "invalid literal for int()"
    | _ => Except.error "too many values to unpack"
  else
    match pyInt? p with
    | some page =>
      if page < 1 ∨ totalPages < page then
        Except.error ("页码 " ++ toString page ++ " 超出范围 (1-" ++ toString totalPages ++ ")")
      else Except.ok (psInsert page pages)
    | none => Except.error "invalid literal for int()"

/-- `utils.parse_page_range`: empty expression selects all pages
(`list(range(1, total_pages + 1))`); otherwise fold `parsePart` over the
comma-separated components and return the accumulated page set in
ascending order (`sorted(list(pages))`). -/
def parse_page_range (pageRangeStr : String) (totalPages : Int) : Except String (List Int) :=
  if pageRangeStr = "" then Except.ok (pyRange 1 (totalPages + 1))
  else ((pySplit ',' pageRangeStr).foldlM (parsePart totalPages) []).map
    (List.insertionSort (· ≤ ·))

/-! ### `llm_handler.py`: error classification and the retry loop

All three provider handlers (`OpenAIHandler`, `ClaudeHandler`,
`GeminiHandler`) contain the same retry loop verbatim (`llm_handler.py`
lines 135-175, 210-249, 280-296); the model below covers all of them.
The network call itself is abstracted as `outcomes : Nat → Except String
String` giving, for each attempt index, either the response text or the
message of the raised exception.
-/

/-- Python `s.lower()` (ASCII case folding, which is all that the error
messages of interest use). -/
def pyLower (s : String) : String :=
  String.mk (s.data.map Char.toLower)

/-- The transient-error test of `llm_handler.py` line 167 (and 241, 288):
`"timeout" in error_msg.lower() or "504" in error_msg or "429" in
error_msg`. -/
def isTransient (msg : String) : Bool :=
  strContains (pyLower msg) "timeout" || strContains msg "504" || strContains msg "429"

/-- The in-loop error return of `llm_handler.py` line 173:
`f"❌ 分析第 {page_num} 页时出错 (尝试{attempt + 1}次): {error_msg}"`. -/
def mkPageError (pageNum : Int) (attempt : Nat) (msg : String) : String :=
  "❌ 分析第 " ++ toString pageNum ++ " 页时出错 (尝试" ++ toString (attempt + 1) ++
    "次): " ++ msg

/-- The post-loop fallback return of `llm_handler.py` line 175. -/
def exhaustMsg (pageNum : Int) : String :=
  "❌ 分析第 " ++ toString pageNum ++ " 页失败: 已达到最大重试次数"

/-- Observable trace of one `analyze_image` call: the returned string, the
`time.sleep` delays performed (in seconds, in order), the number of API
attempts made, and whether the post-loop fallback return was taken. -/
structure RetryTrace where
  result : String
  delays : List Nat
  attempts : Nat
  usedFallback : Bool
deriving Repr, DecidableEq

/-- The retry loop of `analyze_image` (`llm_handler.py` lines 135-175),
iterating `attempt` over `range(max_retries)` with `remaining` attempts
left.  On success the response text is returned; on an exception, if
another attempt remains and the error is transient, wait
`(attempt + 1) * 5` seconds and retry, else return the in-loop error
string; if the loop exhausts without returning, fall through to the
post-loop message. -/
def retryLoop (maxRetries : Nat) (pageNum : Int) (outcomes : Nat → Except String String) :
    Nat → Nat → RetryTrace
  | _, 0 => ⟨exhaustMsg pageNum, [], 0, true⟩
  | attempt, rem + 1 =>
    match outcomes attempt with
    | Except.ok text => ⟨text, [], 1, false⟩
    | Except.error msg =>
      if attempt < maxRetries - 1 ∧ isTransient msg = true then
        let t := retryLoop maxRetries pageNum outcomes (attempt + 1) rem
        ⟨t.result, (attempt + 1) * 5 :: t.delays, t.attempts + 1, t.usedFallback⟩
      else ⟨mkPageError pageNum attempt msg, [], 1, false⟩

/-- Full `analyze_image` retry behaviour: run the loop from attempt 0 with
`max_retries` iterations available. -/
def analyzeTrace (maxRetries : Nat) (pageNum : Int) (outcomes : Nat → Except String String) :
    RetryTrace :=
  retryLoop maxRetries pageNum outcomes 0 maxRetries

/-- Prompt construction of `analyze_image` (`llm_handler.py` lines
125-132): page-tagged template, then the prior-page context block if
nonempty, then the extracted page text if nonempty. -/
def buildPrompt (pageNum : Int) (template prevCtx addCtx : String) : String :=
  let p0 := "【第 " ++ toString pageNum ++ " 页】\n\n" ++ template
  let p1 := if prevCtx ≠ "" then p0 ++ prevCtx else p0
  if addCtx ≠ "" then p1 ++ "\n\n📄 当前页面提取的文本:\n" ++ addCtx else p1

/-! ### `llm_handler.py`: summary extraction and the context window -/

/-- The line filter of `LLMHandler.extract_summary` (`llm_handler.py` line
73): keep a line when its stripped form is nonempty and the line does not
start with `#`. -/
def keepLine (line : String) : Bool :=
  !(pyStrip line.data).isEmpty && !(pyStartsWith line "#")

/-- The accumulation loop of `extract_summary` (`llm_handler.py` lines
70-75): walk the lines with a running character count; stop once the count
exceeds 200; append the stripped form of each kept line and add the
unstripped line length to the count. -/
def summaryLines : List String → Nat → List String
  | [], _ => []
  | line :: rest, cc =>
    if 200 < cc then []
    else if keepLine line = true then
      String.mk (pyStrip line.data) :: summaryLines rest (cc + line.length)
    else summaryLines rest cc

/-- `LLMHandler.extract_summary` (`llm_handler.py` lines 54-78): join the
collected lines with spaces, truncate to 200 characters, and tag with the
page number. -/
def extract_summary (analysisText : String) (pageNum : Int) : String :=
  let lines := pySplit '\n' analysisText
  let summary := pyTake (pyJoin " " (summaryLines lines 0)) 200
  "[第" ++ toString pageNum ++ "页摘要] " ++ summary

/-- `LLMHandler.add_to_context` (`llm_handler.py` lines 80-91): append the
summary; if the list now exceeds `max_context_pages`, drop the oldest
entry (`pop(0)`). -/
def add_to_context (prev : List String) (summary : String) (maxContextPages : Nat) :
    List String :=
  let l := prev ++ [summary]
  if maxContextPages < l.length then l.drop 1 else l

/-- `LLMHandler.get_context_string` (`llm_handler.py` lines 93-99). -/
def get_context_string (summaries : List String) : String :=
  if summaries = [] then ""
  else "\n\n📚 前面页面的内容概要:\n" ++ pyJoin "\n" summaries ++ "\n"

/-- A fresh handler starts with `previous_summaries = []`
(`llm_handler.py` line 35); a sequence of `add_to_context` calls folds
from the empty list. -/
def runPushes (maxContextPages : Nat) (pushes : List String) : List String :=
  pushes.foldl (fun st s => add_to_context st s maxContextPages) []

/-! ### `main.py`: the pipeline orchestrator

`main.py` is modelled as a function from its external inputs to the final
outcome together with the ordered list of observable pipeline actions.
External collaborators are supplied through `MainEnv`:

* `pdf_processor.py` and `output_generator.py` are code of this repository
  that is not under `src/`.  Modelled from the spec: `load_cache` (spec
  §4.6 `ResultCache.load`) returns the stored ordered result sequence or
  nothing, supplied here as `storedCache`; `get_page_count`,
  `extract_page_as_image` and `extract_text` (spec §4.3 ImageExtractor
  contract) are supplied as `totalPages` and `pageText` (`none` models an
  `extract_text` exception, which `main.py` catches).
* The network backend is `backendOutcome`, per page and attempt, exactly
  as in `analyzeTrace`.
* Interactive `input()` answers are the booleans `userUseCache` and
  `userConfirm`.
-/

/-- Observable actions of one `main()` run, in program order. -/
inductive MainAction where
  | loadCache
  | askUseCache
  | getPageCount
  | parseRange
  | confirmRun
  | extractPage (p : Int)
  | modelCall (p : Int) (prompt : String)
  | pauseBetween
  | saveCache
  | emitOutput
deriving Repr, DecidableEq

/-- External inputs of one `main()` run (command-line flags, configuration,
collaborator behaviour). -/
structure MainEnv where
  pdfValid : Bool
  configValid : Bool
  enableCache : Bool
  noCacheFlag : Bool
  storedCache : Option (List (Int × String × String))
  userUseCache : Bool
  userConfirm : Bool
  totalPages : Int
  pagesArg : String
  pageText : Int → Option String
  imageDir : String
  promptTemplate : String
  backendOutcome : Int → Nat → Except String String
  maxRetries : Nat

/-- Outcome of one `main()` run: normal completion with the collected
`(page, image path, explanation)` triples, a fatal `sys.exit(1)`, or the
user declining the cost confirmation (`sys.exit(0)`). -/
inductive MainExit where
  | completed (analyses : List (Int × String × String)) (acts : List MainAction)
  | fatalExit (acts : List MainAction)
  | cancelled (acts : List MainAction)
deriving Repr, DecidableEq

/-- Python `f"{page_num:04d}"` for the nonnegative page numbers used here. -/
def pad4 (n : Int) : String :=
  let s := toString n
  if s.length < 4 then String.mk (List.replicate (4 - s.length) '0') ++ s else s

/-- The image file path of `main.py` lines 127-128. -/
def imagePathOf (imageDir : String) (p : Int) : String :=
  imageDir ++ "/page_" ++ pad4 p ++ ".png"

/-- The auxiliary text context of `main.py` lines 141-145:
`f"页面文本内容:\n{text_content[:500]}" if text_content.strip() else ""`,
with `""` on an `extract_text` exception. -/
def pageContext (env : MainEnv) (p : Int) : String :=
  match env.pageText p with
  | some txt => if pyStripS txt ≠ "" then "页面文本内容:\n" ++ pyTake txt 500 else ""
  | none => ""

/-- The explanation string obtained for page `p`: the result of the
`analyze_image` retry loop under the backend behaviour for that page. -/
def analyzeResult (env : MainEnv) (p : Int) : String :=
  (analyzeTrace env.maxRetries p (env.backendOutcome p)).result

/-- The model-invocation actions of the analysis loop (`main.py` lines
137-153).  `main.py` line 148 calls
`llm_handler.analyze_image(image_path, page_num, context)`: the third
positional argument is `additional_context`, and `previous_context` keeps
its default value `""`, so the prompt of every call carries an empty
prior-context block.  After each page except the last, `time.sleep(1)`. -/
def analysisActs (env : MainEnv) (pagesToProcess : List Int) : List MainAction :=
  (pagesToProcess.map (fun p =>
    MainAction.modelCall p (buildPrompt p env.promptTemplate "" (pageContext env p)) ::
      (match pagesToProcess.getLast? with
       | some last => if p < last then [MainAction.pauseBetween] else []
       | none => []))).flatten

/-- The whole `main()` control flow (`main.py` lines 21-187): validate the
PDF and the configuration (fatal on failure); when caching is enabled and
not disabled by flag, load the cache and, if it holds a nonempty result,
ask the user whether to use it; on a cache hit skip straight to document
generation; otherwise get the page count, parse the page range (fatal on
error), confirm when more than 5 pages are selected (cancel on refusal),
extract one image per page, analyze each page appending
`(page_num, image_path, analysis)`, save the cache when caching is
enabled, and generate the output documents. -/
def mainRun (env : MainEnv) : MainExit :=
  if env.pdfValid = false then MainExit.fatalExit []
  else if env.configValid = false then MainExit.fatalExit []
  else
    let cacheActs : List MainAction :=
      if env.enableCache && !env.noCacheFlag then
        MainAction.loadCache ::
          (match env.storedCache with
           | some r => if r = [] then [] else [MainAction.askUseCache]
           | none => [])
      else []
    let cached : Option (List (Int × String × String)) :=
      if env.enableCache && !env.noCacheFlag then
        match env.storedCache with
        | some r => if r = [] then none else if env.userUseCache then some r else none
        | none => none
      else none
    match cached with
    | some r => MainExit.completed r (cacheActs ++ [MainAction.emitOutput])
    | none =>
      let acts0 := cacheActs ++ [MainAction.getPageCount]
      match parse_page_range env.pagesArg env.totalPages with
      | Except.error _ => MainExit.fatalExit (acts0 ++ [MainAction.parseRange])
      | Except.ok pagesToProcess =>
        let acts1 := acts0 ++ [MainAction.parseRange]
        if 5 < pagesToProcess.length ∧ env.userConfirm = false then
          MainExit.cancelled (acts1 ++ [MainAction.confirmRun])
        else
          let confirmActs := if 5 < pagesToProcess.length then [MainAction.confirmRun] else []
          let analyses := pagesToProcess.map
            (fun p => (p, imagePathOf env.imageDir p, analyzeResult env p))
          let saveActs :=
            if env.enableCache && !env.noCacheFlag then [MainAction.saveCache] else []
          MainExit.completed analyses
            (acts1 ++ confirmActs ++ pagesToProcess.map MainAction.extractPage ++
              analysisActs env pagesToProcess ++ saveActs ++ [MainAction.emitOutput])

/-! ### Auxiliary definitions used by the verification -/

/-- Consecutive naturals `[s, s+1, ..., s+n-1]`. -/
def natsFrom : Nat → Nat → List Nat
  | _, 0 => []
  | s, n + 1 => s :: natsFrom (s + 1) n

/-- Projection of a run outcome onto its analyses (for stating concrete
run results without naming the action list). -/
def completedAnalyses : MainExit → Option (List (Int × String × String))
  | MainExit.completed a _ => some a
  | _ => none

/-- A one-page cache-miss run whose only page always fails: used to
witness C5. -/
def c5Env : MainEnv :=
  ⟨true, true, false, false, none, false, true, 1, "", fun _ => none, "img", "T",
    fun _ _ => Except.error "boom", 1⟩

/-- A run with a valid nonempty cache entry the user accepts: used to
witness C8. -/
def c8Env : MainEnv :=
  ⟨true, true, true, false, some [(2, "img/page_0002.png", "cached text")], true, true,
    9, "", fun _ => none, "img", "T", fun _ _ => Except.ok "unused", 3⟩

/-- A three-page cache-miss run with a succeeding backend: page `p`
yields explanation `"E" ++ toString p`.  The failing input for C1. -/
def c1Env : MainEnv :=
  ⟨true, true, false, false, none, false, true, 3, "", fun _ => none, "img", "T",
    fun p _ => Except.ok ("E" ++ toString p), 3⟩

/-- The well-formedness invariant maintained by the `parse_page_range`
accumulation loop. -/
def PageSetWF (total : Int) (l : List ℤ) : Prop :=
  l.Nodup ∧ ∀ x ∈ l, 1 ≤ x ∧ x ≤ total

example : parse_page_range "1-5" 10 = Except.ok [1, 2, 3, 4, 5] := by rfl

example : parse_page_range "3" 10 = Except.ok [3] := by rfl

example : parse_page_range "1-3,5,7-9" 10 = Except.ok [1, 2, 3, 5, 7, 8, 9] := by rfl

example : parse_page_range "" 5 = Except.ok [1, 2, 3, 4, 5] := by rfl

example : parse_page_range "5-3" 10 = Except.ok [] := by rfl

example : (parse_page_range "1-100" 10).isOk = false := by decide

example : parse_page_range "1-3,2-5" 10 = Except.ok [1, 2, 3, 4, 5] := by rfl

example : extract_summary "# Title\n\nFirst line.\nSecond line." 2 =
    "[第2页摘要] First line. Second line." := by rfl

example : isTransient "Connection timeout" = true := by rfl

example : isTransient "HTTP 429 too many requests" = true := by rfl

example : isTransient "service unavailable" = false := by rfl

example : analyzeTrace 3 7 (fun _ => Except.error "timeout") =
    ⟨mkPageError 7 2 "timeout", [5, 10], 3, false⟩ := by rfl

example : analyzeTrace 3 7 (fun _ => Except.error "bad key") =
    ⟨mkPageError 7 0 "bad key", [], 1, false⟩ := by rfl

example : runPushes 2 ["a", "b", "c"] = ["b", "c"] := by rfl

/-! ### Supporting lemmas -/

lemma add_to_context_length {K : Nat} (st : List String) (s : String) (h : st.length ≤ K) :
    (add_to_context st s K).length ≤ K := by
  simp only [add_to_context]
  split
  · simpa using h
  · next hn =>
    simp only [List.length_append, List.length_singleton] at hn ⊢
    omega

lemma foldl_add_to_context_length (K : Nat) (pushes : List String) :
    ∀ st : List String, st.length ≤ K →
      (pushes.foldl (fun st s => add_to_context st s K) st).length ≤ K := by
  induction pushes with
  | nil => intro st h; simpa using h
  | cons p rest ih =>
    intro st h
    exact ih _ (add_to_context_length st p h)

/-- C6: the `ContextTracker` invariants of `LLMHandler.add_to_context`:
starting from the empty history, the window never holds more than
`max_context_pages` summaries; pushing onto a full window of size `K ≥ 1`
drops exactly the oldest entry; and with `max_context_pages = 0` the
window is empty after every push. -/
theorem c6_context_window_fifo :
    (∀ (K : Nat) (pushes : List String), (runPushes K pushes).length ≤ K) ∧
    (∀ (K : Nat) (st : List String) (s : String), st.length = K → 1 ≤ K →
      add_to_context st s K = st.drop 1 ++ [s]) ∧
    (∀ pushes : List String, runPushes 0 pushes = []) := by
  refine ⟨?_, ?_, ?_⟩
  · intro K pushes
    exact foldl_add_to_context_length K pushes [] (by simp)
  · intro K st s hlen hK
    simp only [add_to_context]
    rw [if_pos (by simp [hlen])]
    exact List.drop_append_of_le_length (by omega)
  · intro pushes
    have h := foldl_add_to_context_length 0 pushes [] (by simp)
    exact List.eq_nil_of_length_eq_zero (Nat.le_zero.mp h)

/-- Witness for C6 at a concrete full window: pushing `"c"` onto
`["a", "b"]` with `K = 2` evicts `"a"`. -/
theorem c6_context_window_fifo_witness :
    add_to_context ["a", "b"] "c" 2 = ["b", "c"] :=
  Eq.trans (c6_context_window_fifo.2.1 2 ["a", "b"] "c" rfl (by decide)) (by rfl)

lemma charsStartWith_append (p s : List Char) : charsStartWith (p ++ s) p = true := by
  induction p with
  | nil => cases s <;> rfl
  | cons c cs ih => simp [charsStartWith, ih]

lemma charsContains_of_startWith (s pat : List Char) (h : charsStartWith s pat = true) :
    charsContains pat s = true := by
  cases s with
  | nil => cases pat with
    | nil => rfl
    | cons c cs => simp [charsStartWith] at h
  | cons c cs => simp [charsContains, h]

lemma charsContains_append (xs pat ys : List Char) :
    charsContains pat (xs ++ (pat ++ ys)) = true := by
  induction xs with
  | nil =>
    exact charsContains_of_startWith _ _ (charsStartWith_append pat ys)
  | cons c cs ih => simp [charsContains, ih]

lemma strContains_middle (x y z : String) : strContains (x ++ (y ++ z)) y = true := by
  simp only [strContains, String.data_append]
  exact charsContains_append x.data y.data z.data

lemma digit_not_ws (c : Char) (h : c.isDigit = true) : c.isWhitespace = false := by
  simp only [Char.isDigit, Bool.and_eq_true, decide_eq_true_eq] at h
  simp only [Char.isWhitespace, Bool.or_eq_false_iff, decide_eq_false_iff_not]
  refine ⟨⟨⟨?_, ?_⟩, ?_⟩, ?_⟩ <;> (intro hc; subst hc; revert h; decide)

lemma digit_ne_comma (c : Char) (h : c.isDigit = true) : c ≠ ',' := by
  simp only [Char.isDigit, Bool.and_eq_true, decide_eq_true_eq] at h
  intro hc; subst hc; revert h; decide

lemma digit_ne_dash (c : Char) (h : c.isDigit = true) : c ≠ '-' := by
  simp only [Char.isDigit, Bool.and_eq_true, decide_eq_true_eq] at h
  intro hc; subst hc; revert h; decide

lemma dropWhile_eq_self_of_none (p : Char → Bool) (l : List Char)
    (h : ∀ c ∈ l, p c = false) : l.dropWhile p = l := by
  cases l with
  | nil => rfl
  | cons c cs => simp [List.dropWhile, h c (by simp)]

lemma pyStrip_eq_self (l : List Char) (h : ∀ c ∈ l, c.isWhitespace = false) :
    pyStrip l = l := by
  unfold pyStrip
  rw [dropWhile_eq_self_of_none _ _ h]
  rw [dropWhile_eq_self_of_none _ _ (by intro c hc; exact h c (by simpa using hc))]
  exact List.reverse_reverse l

lemma splitOneSep_no_sep (sep : Char) (l : List Char) (h : ∀ c ∈ l, c ≠ sep) :
    splitOneSep sep l = [l] := by
  induction l with
  | nil => rfl
  | cons c cs ih =>
    have hc : c ≠ sep := h c (by simp)
    have ihh := ih (fun x hx => h x (by simp [hx]))
    simp [splitOneSep, hc, ihh]

lemma splitOneSep_append_sep (sep : Char) (xs ys : List Char) (h : ∀ c ∈ xs, c ≠ sep) :
    splitOneSep sep (xs ++ sep :: ys) = xs :: splitOneSep sep ys := by
  induction xs with
  | nil => simp [splitOneSep]
  | cons c cs ih =>
    have hc : c ≠ sep := h c (by simp)
    have ihh := ih (fun x hx => h x (by simp [hx]))
    simp [splitOneSep, hc, ihh]

/-! ### C2: `start > end` range components -/

/-- C2 counterexample: the claim says `parse_page_range` must fail with a
`RangeError` on a `start-end` component with `start > end`; on the
concrete input `"5-3"` with 10 total pages the code instead succeeds and
the component contributes no pages (`range(5, 4)` is empty). -/
theorem c2_start_gt_end_counterexample :
    parse_page_range "5-3" 10 = Except.ok [] := by rfl

lemma digits_not_ws_list (l : List Char) (h : ∀ c ∈ l, c.isDigit = true) :
    ∀ c ∈ l, c.isWhitespace = false :=
  fun c hc => digit_not_ws c (h c hc)

/-- C2 amended: for a range expression that is a single `start-end`
component written with decimal digits, where both bounds lie in
`[1, total_pages]` but `start > end`, `parse_page_range` raises no error:
it returns the empty selection, the component contributing no pages. -/
theorem c2_start_gt_end_amended (a b : String) (s e total : Int)
    (ha : pyInt? a = some s) (hb : pyInt? b = some e)
    (hda : ∀ c ∈ a.data, c.isDigit = true) (hdb : ∀ c ∈ b.data, c.isDigit = true)
    (h1 : 1 ≤ s) (h2 : s ≤ total) (h3 : 1 ≤ e) (h4 : e ≤ total) (h5 : e < s) :
    parse_page_range (a ++ "-" ++ b) total = Except.ok [] := by
  have hfullData : (a ++ "-" ++ b).data = a.data ++ '-' :: b.data := by
    simp [String.data_append]
  have hallws : ∀ c ∈ (a ++ "-" ++ b).data, c.isWhitespace = false := by
    rw [hfullData]
    intro c hc
    rcases List.mem_append.mp hc with h | h
    · exact digit_not_ws c (hda c h)
    · rcases List.mem_cons.mp h with rfl | h
      · decide
      · exact digit_not_ws c (hdb c h)
  have hp : pyStripS (a ++ "-" ++ b) = a ++ "-" ++ b := by
    show String.mk (pyStrip (a ++ "-" ++ b).data) = a ++ "-" ++ b
    rw [pyStrip_eq_self _ hallws]
  have hcont : strContains (a ++ "-" ++ b) "-" = true := by
    show charsContains "-".data (a ++ "-" ++ b).data = true
    rw [hfullData]
    exact charsContains_append a.data "-".data b.data
  have hsplit : pySplit '-' (a ++ "-" ++ b) = [a, b] := by
    show (splitOneSep '-' (a ++ "-" ++ b).data).map String.mk = [a, b]
    rw [hfullData]
    rw [splitOneSep_append_sep '-' a.data b.data (fun c hc => digit_ne_dash c (hda c hc))]
    rw [splitOneSep_no_sep '-' b.data (fun c hc => digit_ne_dash c (hdb c hc))]
    rfl
  have hbounds : ¬(s < 1 ∨ total < e) := by omega
  have hpp : parsePart total [] (a ++ "-" ++ b) = Except.ok [] := by
    simp only [parsePart, hp, hcont, hsplit, ha, hb, if_true]
    rw [if_neg hbounds]
    have hz : (e + 1 - s).toNat = 0 := by omega
    simp [psUpdateRange, pyRange, hz]
  have hne : (a ++ "-" ++ b) ≠ "" := by
    intro h0
    have := congrArg String.data h0
    rw [hfullData] at this
    simp at this
  have hsplitc : pySplit ',' (a ++ "-" ++ b) = [a ++ "-" ++ b] := by
    show (splitOneSep ',' (a ++ "-" ++ b).data).map String.mk = [a ++ "-" ++ b]
    rw [splitOneSep_no_sep ',' (a ++ "-" ++ b).data]
    · rfl
    · rw [hfullData]
      intro c hc
      rcases List.mem_append.mp hc with h | h
      · exact digit_ne_comma c (hda c h)
      · rcases List.mem_cons.mp h with rfl | h
        · decide
        · exact digit_ne_comma c (hdb c h)
  rw [parse_page_range, if_neg hne, hsplitc]
  simp [List.foldlM, hpp]
  rfl

/-- Witness for C2 amended at the concrete component `"5-3"` with 10
pages. -/
theorem c2_start_gt_end_amended_witness :
    parse_page_range ("5" ++ "-" ++ "3") 10 = Except.ok [] :=
  c2_start_gt_end_amended "5" "3" 5 3 10 (by rfl) (by rfl)
    (by decide) (by decide) (by decide) (by decide) (by decide) (by decide) (by decide)

lemma natsFrom_eq_range_map : ∀ (n s : Nat), natsFrom s n = (List.range n).map (s + ·) := by
  intro n
  induction n with
  | zero => intro s; rfl
  | succ k ih =>
    intro s
    rw [List.range_succ_eq_map]
    simp only [natsFrom, List.map_cons, List.map_map, ih]
    refine congrArg₂ List.cons (by omega) ?_
    refine List.map_congr_left ?_
    intro i hi
    simp [Function.comp]
    omega

lemma charsContains_append_left (x s pat : List Char) (h : charsContains pat s = true) :
    charsContains pat (x ++ s) = true := by
  induction x with
  | nil => simpa using h
  | cons c cs ih => simp [charsContains, ih]

lemma retryLoop_succ_eq (mr : Nat) (pn : Int) (out : Nat → Except String String)
    (a rem : Nat) :
    retryLoop mr pn out a (rem + 1) =
      match out a with
      | Except.ok text => ⟨text, [], 1, false⟩
      | Except.error m =>
        if a < mr - 1 ∧ isTransient m = true then
          ⟨(retryLoop mr pn out (a + 1) rem).result,
            (a + 1) * 5 :: (retryLoop mr pn out (a + 1) rem).delays,
            (retryLoop mr pn out (a + 1) rem).attempts + 1,
            (retryLoop mr pn out (a + 1) rem).usedFallback⟩
        else ⟨mkPageError pn a m, [], 1, false⟩ := rfl

lemma retryLoop_ok_step (mr : Nat) (pn : Int) (out : Nat → Except String String)
    (a rem : Nat) (t : String) (h : out a = Except.ok t) :
    retryLoop mr pn out a (rem + 1) = ⟨t, [], 1, false⟩ := by
  rw [retryLoop_succ_eq, h]

lemma retryLoop_error_step (mr : Nat) (pn : Int) (out : Nat → Except String String)
    (a rem : Nat) (m : String) (h : out a = Except.error m) :
    retryLoop mr pn out a (rem + 1) =
      if a < mr - 1 ∧ isTransient m = true then
        ⟨(retryLoop mr pn out (a + 1) rem).result,
          (a + 1) * 5 :: (retryLoop mr pn out (a + 1) rem).delays,
          (retryLoop mr pn out (a + 1) rem).attempts + 1,
          (retryLoop mr pn out (a + 1) rem).usedFallback⟩
      else ⟨mkPageError pn a m, [], 1, false⟩ := by
  rw [retryLoop_succ_eq, h]

lemma retryLoop_attempts_pos (mr : Nat) (pn : Int) (out : Nat → Except String String)
    (a r : Nat) : 1 ≤ (retryLoop mr pn out a (r + 1)).attempts := by
  rcases h : out a with m | t
  · rw [retryLoop_error_step mr pn out a r m h]
    by_cases hc : a < mr - 1 ∧ isTransient m = true
    · rw [if_pos hc]
      exact Nat.succ_le_succ (Nat.zero_le _)
    · rw [if_neg hc]
  · rw [retryLoop_ok_step mr pn out a r t h]

lemma retryLoop_all_transient (mr : Nat) (pn : Int) (out : Nat → Except String String)
    (msgs : Nat → String) (hout : ∀ i, out i = Except.error (msgs i))
    (htr : ∀ i, isTransient (msgs i) = true) :
    ∀ (r a : Nat), a + (r + 1) = mr →
      retryLoop mr pn out a (r + 1) =
        ⟨mkPageError pn (mr - 1) (msgs (mr - 1)),
          (natsFrom (a + 1) r).map (fun i => i * 5), r + 1, false⟩ := by
  intro r
  induction r with
  | zero =>
    intro a hinv
    have ha : mr - 1 = a := by omega
    rw [retryLoop_error_step mr pn out a 0 (msgs a) (hout a)]
    rw [if_neg (by rintro ⟨h1, -⟩; omega)]
    simp [natsFrom, ha]
  | succ k ih =>
    intro a hinv
    rw [retryLoop_error_step mr pn out a (k + 1) (msgs a) (hout a)]
    rw [if_pos ⟨by omega, htr a⟩]
    rw [ih (a + 1) (by omega)]
    simp [natsFrom]

lemma retryLoop_no_fallback (mr : Nat) (pn : Int) (out : Nat → Except String String) :
    ∀ (r a : Nat), a + (r + 1) = mr →
      (retryLoop mr pn out a (r + 1)).usedFallback = false := by
  intro r
  induction r with
  | zero =>
    intro a hinv
    rcases h : out a with m | t
    · rw [retryLoop_error_step mr pn out a 0 m h]
      rw [if_neg (by rintro ⟨h1, -⟩; omega)]
    · rw [retryLoop_ok_step mr pn out a 0 t h]
  | succ k ih =>
    intro a hinv
    rcases h : out a with m | t
    · rw [retryLoop_error_step mr pn out a (k + 1) m h]
      by_cases hc : a < mr - 1 ∧ isTransient m = true
      · rw [if_pos hc]
        exact ih (a + 1) (by omega)
      · rw [if_neg hc]
    · rw [retryLoop_ok_step mr pn out a (k + 1) t h]

lemma retryLoop_exhaust (mr : Nat) (pn : Int) (out : Nat → Except String String)
    (msgs : Nat → String) (hout : ∀ i, out i = Except.error (msgs i))
    (htr : ∀ i, i < mr - 1 → isTransient (msgs i) = true) :
    ∀ (r a : Nat), a + (r + 1) = mr →
      (retryLoop mr pn out a (r + 1)).result = mkPageError pn (mr - 1) (msgs (mr - 1)) := by
  intro r
  induction r with
  | zero =>
    intro a hinv
    have ha : mr - 1 = a := by omega
    rw [retryLoop_error_step mr pn out a 0 (msgs a) (hout a)]
    rw [if_neg (by rintro ⟨h1, -⟩; omega)]
    rw [ha]
  | succ k ih =>
    intro a hinv
    rw [retryLoop_error_step mr pn out a (k + 1) (msgs a) (hout a)]
    rw [if_pos ⟨by omega, htr a (by omega)⟩]
    exact ih (a + 1) (by omega)

lemma retryLoop_error_result (mr : Nat) (pn : Int) (out : Nat → Except String String)
    (msgs : Nat → String) (hout : ∀ i, out i = Except.error (msgs i)) :
    ∀ (r a : Nat), a + (r + 1) = mr →
      ∃ j, a ≤ j ∧ j < mr ∧
        (retryLoop mr pn out a (r + 1)).result = mkPageError pn j (msgs j) := by
  intro r
  induction r with
  | zero =>
    intro a hinv
    refine ⟨a, le_refl a, by omega, ?_⟩
    rw [retryLoop_error_step mr pn out a 0 (msgs a) (hout a)]
    rw [if_neg (by rintro ⟨h1, -⟩; omega)]
  | succ k ih =>
    intro a hinv
    rw [retryLoop_error_step mr pn out a (k + 1) (msgs a) (hout a)]
    by_cases hc : a < mr - 1 ∧ isTransient (msgs a) = true
    · rw [if_pos hc]
      obtain ⟨j, hj1, hj2, hj3⟩ := ih (a + 1) (by omega)
      exact ⟨j, by omega, hj2, hj3⟩
    · rw [if_neg hc]
      exact ⟨a, le_refl a, by omega, rfl⟩

lemma strContains_mkPageError_page (pn : Int) (a : Nat) (m : String) :
    strContains (mkPageError pn a m) (toString pn) = true := by
  show charsContains (toString pn).data (mkPageError pn a m).data = true
  simp only [mkPageError, String.data_append, List.append_assoc]
  exact charsContains_append _ _ _

lemma strContains_mkPageError_attempt (pn : Int) (a : Nat) (m : String) :
    strContains (mkPageError pn a m) (toString (a + 1)) = true := by
  show charsContains (toString (a + 1)).data (mkPageError pn a m).data = true
  simp only [mkPageError, String.data_append, List.append_assoc]
  apply charsContains_append_left
  apply charsContains_append_left
  apply charsContains_append_left
  exact charsContains_append [] _ _

/-! ### C4, C10, C3: retry policy -/

/-- C4: under a backend whose every call fails with a transient error,
`analyze_image` makes exactly `max_retries` attempts, sleeping
`(i) * 5` seconds before retry `i` (delays `5, 10, 15, ...`), performs no
wait after the final attempt (there are `max_retries - 1` delays), and
returns the in-loop error text embedding the final attempt count. -/
theorem c4_linear_backoff_exhaustion (mr : Nat) (pn : Int)
    (out : Nat → Except String String) (msgs : Nat → String) (hmr : 1 ≤ mr)
    (hout : ∀ i, out i = Except.error (msgs i))
    (htr : ∀ i, isTransient (msgs i) = true) :
    analyzeTrace mr pn out =
      ⟨mkPageError pn (mr - 1) (msgs (mr - 1)),
        (List.range (mr - 1)).map (fun i => (i + 1) * 5), mr, false⟩ := by
  obtain ⟨r, rfl⟩ : ∃ r, r + 1 = mr := ⟨mr - 1, by omega⟩
  show retryLoop (r + 1) pn out 0 (r + 1) = _
  rw [retryLoop_all_transient (r + 1) pn out msgs hout htr r 0 (by omega)]
  have hd : (natsFrom 1 r).map (fun i => i * 5) =
      (List.range ((r + 1) - 1)).map (fun i => (i + 1) * 5) := by
    rw [natsFrom_eq_range_map, List.map_map]
    simp only [Nat.add_sub_cancel]
    refine List.map_congr_left ?_
    intro i hi
    simp [Function.comp]
    omega
  rw [hd]

/-- Witness for C4: three transient failures with `max_retries = 3` give
three attempts, delays `[5, 10]`, and the attempt-3 error text. -/
theorem c4_linear_backoff_exhaustion_witness :
    analyzeTrace 3 5 (fun _ => Except.error "timeout") =
      ⟨mkPageError 5 2 "timeout", [5, 10], 3, false⟩ :=
  Eq.trans
    (c4_linear_backoff_exhaustion 3 5 (fun _ => Except.error "timeout")
      (fun _ => "timeout") (by omega) (fun _ => rfl) (fun _ => by rfl))
    (by rfl)

/-- C10: for `max_retries ≥ 1` the post-loop fallback return of
`analyze_image` (the `"已达到最大重试次数"` message) is unreachable under
every backend behaviour, and on retry exhaustion the caller receives the
in-loop error string whose reported attempt count is
`(max_retries - 1) + 1 = max_retries`. -/
theorem c10_fallback_unreachable (mr : Nat) (pn : Int)
    (out : Nat → Except String String) (hmr : 1 ≤ mr) :
    (analyzeTrace mr pn out).usedFallback = false ∧
    (∀ msgs : Nat → String, (∀ i, out i = Except.error (msgs i)) →
      (∀ i, i < mr - 1 → isTransient (msgs i) = true) →
      (analyzeTrace mr pn out).result = mkPageError pn (mr - 1) (msgs (mr - 1))) := by
  obtain ⟨r, rfl⟩ : ∃ r, r + 1 = mr := ⟨mr - 1, by omega⟩
  constructor
  · exact retryLoop_no_fallback (r + 1) pn out r 0 (by omega)
  · intro msgs hout htr
    exact retryLoop_exhaust (r + 1) pn out msgs hout htr r 0 (by omega)

/-- Witness for C10 with `max_retries = 1` and a failing backend: no
fallback, and the in-loop attempt-1 error string is returned. -/
theorem c10_fallback_unreachable_witness :
    (analyzeTrace 1 9 (fun _ => Except.error "x")).usedFallback = false ∧
    (analyzeTrace 1 9 (fun _ => Except.error "x")).result = mkPageError 9 0 "x" := by
  have h := c10_fallback_unreachable 1 9 (fun _ => Except.error "x") (by omega)
  exact ⟨h.1, h.2 (fun _ => "x") (fun _ => rfl) (fun i hi => absurd hi (by omega))⟩

/-- C3 counterexample: the claim says transient errors are exactly
timeouts, rate limits ("too many requests"), and "service unavailable"
errors, and that a `"service unavailable"` exception is retried.  The
code classifies by substring ("timeout"/"504"/"429") instead: a
`"service unavailable"` message is not transient, and under it
`analyze_image` with `max_retries = 3` stops after one attempt; a bare
`"too many requests"` message is not transient either. -/
theorem c3_service_unavailable_counterexample :
    isTransient "service unavailable" = false ∧
    isTransient "too many requests" = false ∧
    (analyzeTrace 3 7 (fun _ => Except.error "service unavailable")).attempts = 1 := by
  refine ⟨by rfl, by rfl, by rfl⟩

/-- C3 amended: a failed call is retried exactly when another attempt
remains and the error message contains `"timeout"` (case-insensitively),
`"504"`, or `"429"`; thus `"Request timeout"`, `"Error 504"` and
`"Error 429"` messages are transient, while `"service unavailable"`,
`"too many requests"` and auth-failure messages are not retried. -/
theorem c3_transient_classification_amended :
    (∀ (mr : Nat) (pn : Int) (out : Nat → Except String String),
      1 < (analyzeTrace mr pn out).attempts ↔
        (1 < mr ∧ ∃ m, out 0 = Except.error m ∧ isTransient m = true)) ∧
    isTransient "Request timeout" = true ∧
    isTransient "Error 504" = true ∧
    isTransient "Error 429" = true ∧
    isTransient "invalid api key" = false := by
  refine ⟨?_, by rfl, by rfl, by rfl, by rfl⟩
  intro mr pn out
  match mr with
  | 0 =>
    constructor
    · intro hx
      have : (analyzeTrace 0 pn out).attempts = 0 := by rfl
      omega
    · rintro ⟨h1, -⟩
      omega
  | k + 1 =>
    show 1 < (retryLoop (k + 1) pn out 0 (k + 1)).attempts ↔ _
    rcases h : out 0 with m | t
    · rw [retryLoop_error_step (k + 1) pn out 0 k m h]
      by_cases hc : 0 < (k + 1) - 1 ∧ isTransient m = true
      · rw [if_pos hc]
        obtain ⟨k1, rfl⟩ : ∃ k1, k1 + 1 = k := ⟨k - 1, by omega⟩
        have hpos := retryLoop_attempts_pos (k1 + 1 + 1) pn out 1 k1
        constructor
        · intro _
          exact ⟨by omega, m, rfl, hc.2⟩
        · intro _
          show 1 < (retryLoop (k1 + 1 + 1) pn out 1 (k1 + 1)).attempts + 1
          omega
      · rw [if_neg hc]
        constructor
        · intro hx
          exfalso
          simp at hx
        · rintro ⟨h1, m', hm', ht'⟩
          injection hm' with e
          subst e
          exact (hc ⟨by omega, ht'⟩).elim
    · rw [retryLoop_ok_step (k + 1) pn out 0 k t h]
      constructor
      · intro hx
        exfalso
        simp at hx
      · rintro ⟨-, m', hm', -⟩
        simp at hm'

/-- Witness for C3 amended: a first-attempt `"timeout"` with
`max_retries = 2` triggers a retry. -/
theorem c3_transient_classification_amended_witness :
    1 < (analyzeTrace 2 1 (fun _ => Except.error "timeout")).attempts :=
  (c3_transient_classification_amended.1 2 1 (fun _ => Except.error "timeout")).mpr
    ⟨by omega, "timeout", rfl, by rfl⟩

/-! ### C5: recovered failures -/

/-- C5: every backend exception is absorbed by `analyze_image` into a
returned string: when every attempt of a page fails, the result is the
in-loop error string `mkPageError` for the attempt `a` on which the loop
gave up (`a < max_retries`), and that string contains the page number and
the attempt count; and the orchestrator records whatever string
`analyze_image` returns as the page's explanation and continues, so a run
that reaches the analysis loop completes with one entry per selected
page. -/
theorem c5_model_failure_never_aborts :
    (∀ (mr : Nat) (pn : Int) (out : Nat → Except String String) (msgs : Nat → String),
      1 ≤ mr → (∀ i, out i = Except.error (msgs i)) →
      ∃ a, a < mr ∧
        (analyzeTrace mr pn out).result = mkPageError pn a (msgs a) ∧
        strContains (analyzeTrace mr pn out).result (toString pn) = true ∧
        strContains (analyzeTrace mr pn out).result (toString (a + 1)) = true) ∧
    (∀ (env : MainEnv) (pages : List Int),
      env.pdfValid = true → env.configValid = true → env.storedCache = none →
      parse_page_range env.pagesArg env.totalPages = Except.ok pages →
      (pages.length ≤ 5 ∨ env.userConfirm = true) →
      ∃ acts, mainRun env = MainExit.completed
        (pages.map (fun p => (p, imagePathOf env.imageDir p, analyzeResult env p))) acts) := by
  constructor
  · intro mr pn out msgs hmr hout
    obtain ⟨r, rfl⟩ : ∃ r, r + 1 = mr := ⟨mr - 1, by omega⟩
    obtain ⟨j, hj0, hj1, hj2⟩ := retryLoop_error_result (r + 1) pn out msgs hout r 0 (by omega)
    refine ⟨j, hj1, hj2, ?_, ?_⟩
    · show strContains (retryLoop (r + 1) pn out 0 (r + 1)).result (toString pn) = true
      rw [hj2]
      exact strContains_mkPageError_page pn j (msgs j)
    · show strContains (retryLoop (r + 1) pn out 0 (r + 1)).result (toString (j + 1)) = true
      rw [hj2]
      exact strContains_mkPageError_attempt pn j (msgs j)
  · intro env pages hpdf hcfg hsc hparse hconf
    have hcf : ¬(5 < pages.length ∧ env.userConfirm = false) := by
      rcases hconf with h | h
      · rintro ⟨h1, -⟩
        omega
      · rintro ⟨-, h2⟩
        rw [h] at h2
        cases h2
    exact ⟨_, by simp only [mainRun, hpdf, hcfg, hsc, hparse]; simp [hcf]; rfl⟩

/-- Witness for C5: with `max_retries = 1` and a backend that always
raises `"boom"`, page 4 gets the attempt-1 error string containing the
page number, and a one-page run under the same backend still completes
with that page's entry present. -/
theorem c5_model_failure_never_aborts_witness :
    (analyzeTrace 1 4 (fun _ => Except.error "boom")).result = mkPageError 4 0 "boom" ∧
    strContains (analyzeTrace 1 4 (fun _ => Except.error "boom")).result
      (toString (4 : Int)) = true ∧
    completedAnalyses (mainRun c5Env) =
      some [(1, imagePathOf "img" 1, analyzeResult c5Env 1)] := by
  obtain ⟨a, ha, h1, h2, h3⟩ := c5_model_failure_never_aborts.1 1 4
    (fun _ => Except.error "boom") (fun _ => "boom") (by omega) (fun _ => rfl)
  obtain ⟨acts, hacts⟩ := c5_model_failure_never_aborts.2 c5Env [1]
    rfl rfl rfl (by rfl) (Or.inl (by decide))
  have ha0 : a = 0 := by omega
  subst ha0
  refine ⟨h1, h2, ?_⟩
  rw [hacts]
  rfl

/-! ### C8: cache short-circuit -/

/-- C8: when caching is enabled, not disabled by flag, the loaded cache
entry is a nonempty result list, and the user opts in, `main` completes
with exactly the cached results, performing only the cache load, the
user prompt and document output: no page-range parsing, no image
extraction and no model call occurs (so the cache is consulted before
any model call could happen). -/
theorem c8_cache_hit_short_circuit (env : MainEnv) (r : List (Int × String × String))
    (hpdf : env.pdfValid = true) (hcfg : env.configValid = true)
    (hec : env.enableCache = true) (hnc : env.noCacheFlag = false)
    (hsc : env.storedCache = some r) (hr : r ≠ []) (huse : env.userUseCache = true) :
    mainRun env = MainExit.completed r
      [MainAction.loadCache, MainAction.askUseCache, MainAction.emitOutput] ∧
    MainAction.parseRange ∉
      ([MainAction.loadCache, MainAction.askUseCache, MainAction.emitOutput] :
        List MainAction) ∧
    (∀ p : Int, MainAction.extractPage p ∉
      ([MainAction.loadCache, MainAction.askUseCache, MainAction.emitOutput] :
        List MainAction)) ∧
    (∀ (p : Int) (s : String), MainAction.modelCall p s ∉
      ([MainAction.loadCache, MainAction.askUseCache, MainAction.emitOutput] :
        List MainAction)) := by
  refine ⟨?_, by simp, fun p => by simp, fun p s => by simp⟩
  simp only [mainRun, hpdf, hcfg, hec, hnc, hsc, huse]
  simp [hr]

/-- Witness for C8 at a concrete cached run. -/
theorem c8_cache_hit_short_circuit_witness :
    mainRun c8Env = MainExit.completed [(2, "img/page_0002.png", "cached text")]
      [MainAction.loadCache, MainAction.askUseCache, MainAction.emitOutput] :=
  (c8_cache_hit_short_circuit c8Env [(2, "img/page_0002.png", "cached text")]
    rfl rfl rfl rfl rfl (by decide) rfl).1

/-! ### C1: context threading in the analysis loop -/

/-- C1: the claim (and spec §4.7/§8) says the analysis loop passes the
`ContextTracker` render as `priorContext` and pushes a `PageSummary`
after every page, so the page-3 prompt of a 3-page run contains the
summaries of pages 1 and 2.  The code does not: `main.py` line 148 calls
`analyze_image(image_path, page_num, context)`, leaving
`previous_context = ""`, and never calls `extract_summary` or
`add_to_context`.  Evaluating the model on the failing input (3 pages,
every call succeeding) shows every prompt is the bare page-tagged
template: the page-3 prompt contains neither page summary, although the
summaries and a nonempty rendered context block exist in the handler
component (`extract_summary` / `get_context_string`). -/
theorem c1_orchestrator_never_threads_context :
    mainRun c1Env = MainExit.completed
      [(1, "img/page_0001.png", "E1"), (2, "img/page_0002.png", "E2"),
        (3, "img/page_0003.png", "E3")]
      [MainAction.getPageCount, MainAction.parseRange,
        MainAction.extractPage 1, MainAction.extractPage 2, MainAction.extractPage 3,
        MainAction.modelCall 1 "【第 1 页】\n\nT", MainAction.pauseBetween,
        MainAction.modelCall 2 "【第 2 页】\n\nT", MainAction.pauseBetween,
        MainAction.modelCall 3 "【第 3 页】\n\nT",
        MainAction.emitOutput] ∧
    strContains "【第 3 页】\n\nT" (extract_summary "E1" 1) = false ∧
    strContains "【第 3 页】\n\nT" (extract_summary "E2" 2) = false ∧
    get_context_string [extract_summary "E1" 1, extract_summary "E2" 2] ≠ "" := by
  refine ⟨by rfl, by rfl, by rfl, by decide⟩

/-! ### C7: page-selection invariants -/

lemma psInsert_mem (x y : ℤ) (l : List ℤ) (h : x ∈ psInsert y l) : x = y ∨ x ∈ l := by
  unfold psInsert at h
  split at h
  · exact Or.inr h
  · rcases List.mem_cons.mp h with h | h
    · exact Or.inl h
    · exact Or.inr h

lemma psInsert_nodup (y : ℤ) (l : List ℤ) (h : l.Nodup) : (psInsert y l).Nodup := by
  unfold psInsert
  split
  · exact h
  · next hy => exact List.nodup_cons.mpr ⟨hy, h⟩

lemma foldl_psInsert_nodup (ys : List ℤ) :
    ∀ l : List ℤ, l.Nodup → (ys.foldl (fun acc x => psInsert x acc) l).Nodup := by
  induction ys with
  | nil => intro l h; exact h
  | cons y ys ih => intro l h; exact ih (psInsert y l) (psInsert_nodup y l h)

lemma foldl_psInsert_mem (ys : List ℤ) :
    ∀ (l : List ℤ) (x : ℤ), x ∈ ys.foldl (fun acc x => psInsert x acc) l →
      x ∈ ys ∨ x ∈ l := by
  induction ys with
  | nil => intro l x h; exact Or.inr h
  | cons y ys ih =>
    intro l x h
    rcases ih (psInsert y l) x h with h | h
    · exact Or.inl (List.mem_cons_of_mem y h)
    · rcases psInsert_mem x y l h with h | h
      · exact Or.inl (by simp [h])
      · exact Or.inr h

lemma pyRange_mem (a b x : Int) : x ∈ pyRange a b ↔ a ≤ x ∧ x < b := by
  constructor
  · intro h
    obtain ⟨i, hi, hx⟩ := List.mem_map.mp h
    rw [List.mem_range] at hi
    omega
  · intro h
    exact List.mem_map.mpr ⟨(x - a).toNat, List.mem_range.mpr (by omega), by omega⟩

lemma pyRange_sorted (a b : Int) : List.Sorted (· < ·) (pyRange a b) := by
  unfold pyRange
  rw [List.Sorted, List.pairwise_map]
  exact List.Pairwise.imp (fun h => by omega) (List.pairwise_lt_range ((b - a).toNat))

lemma parsePart_preserves (total : Int) (acc : List ℤ) (part : String) (res : List ℤ)
    (h : parsePart total acc part = Except.ok res) (hacc : PageSetWF total acc) :
    PageSetWF total res := by
  simp only [parsePart] at h
  split at h
  · split at h
    · split at h
      · split at h
        · exact absurd h (by simp)
        · next hb =>
          injection h with h
          subst h
          constructor
          · exact foldl_psInsert_nodup _ acc hacc.1
          · intro x hx
            rcases foldl_psInsert_mem _ acc x hx with hx | hx
            · rw [pyRange_mem] at hx
              omega
            · exact hacc.2 x hx
      · exact absurd h (by simp)
    · exact absurd h (by simp)
  · split at h
    · split at h
      · exact absurd h (by simp)
      · next hb =>
        injection h with h
        subst h
        constructor
        · exact psInsert_nodup _ acc hacc.1
        · intro x hx
          rcases psInsert_mem x _ acc hx with hx | hx
          · omega
          · exact hacc.2 x hx
    · exact absurd h (by simp)

lemma foldlM_parsePart_inv (total : Int) :
    ∀ (parts : List String) (acc res : List ℤ), PageSetWF total acc →
      List.foldlM (parsePart total) acc parts = Except.ok res →
      PageSetWF total res := by
  intro parts
  induction parts with
  | nil =>
    intro acc res hacc h
    simp only [List.foldlM] at h
    injection h with h
    subst h
    exact hacc
  | cons part rest ih =>
    intro acc res hacc h
    simp only [List.foldlM] at h
    cases hp : parsePart total acc part with
    | error e => rw [hp] at h; exact absurd h (by simp [Bind.bind, Except.bind])
    | ok st =>
      rw [hp] at h
      exact ih st res (parsePart_preserves total acc part st hp hacc) h

/-- C7: whenever `parse_page_range` succeeds, the returned selection is
strictly ascending, duplicate-free, and each page lies in
`[1, total_pages]`; the empty expression yields the full range
`1..total_pages`; and overlapping ranges are deduplicated, not
rejected. -/
theorem c7_selection_invariants :
    (∀ (s : String) (total : Int) (pages : List Int),
      parse_page_range s total = Except.ok pages →
      List.Sorted (· < ·) pages ∧ pages.Nodup ∧ ∀ x ∈ pages, 1 ≤ x ∧ x ≤ total) ∧
    (∀ total : Int, parse_page_range "" total = Except.ok (pyRange 1 (total + 1)) ∧
      (∀ x : Int, x ∈ pyRange 1 (total + 1) ↔ 1 ≤ x ∧ x ≤ total)) ∧
    parse_page_range "1-3,2-5" 10 = Except.ok [1, 2, 3, 4, 5] := by
  refine ⟨?_, ?_, by rfl⟩
  · intro s total pages h
    rw [parse_page_range] at h
    split at h
    · injection h with h
      subst h
      refine ⟨pyRange_sorted 1 (total + 1), (pyRange_sorted 1 (total + 1)).nodup, ?_⟩
      intro x hx
      rw [pyRange_mem] at hx
      omega
    · cases hf : (pySplit ',' s).foldlM (parsePart total) [] with
      | error e =>
        rw [hf] at h
        exact absurd h (by simp [Except.map])
      | ok acc =>
        rw [hf] at h
        simp only [Except.map] at h
        injection h with h
        subst h
        have hwf := foldlM_parsePart_inv total (pySplit ',' s) [] acc
          ⟨List.nodup_nil, by simp⟩ hf
        have hperm := List.perm_insertionSort (· ≤ ·) acc
        have hnd : (List.insertionSort (· ≤ ·) acc).Nodup :=
          (hperm.nodup_iff).mpr hwf.1
        have hsorted_le := List.sorted_insertionSort (· ≤ ·) acc
        have hsorted : List.Sorted (· < ·) (List.insertionSort (· ≤ ·) acc) := by
          rw [List.Sorted] at hsorted_le ⊢
          exact (List.Pairwise.and hsorted_le hnd).imp (fun h => lt_of_le_of_ne h.1 h.2)
        refine ⟨hsorted, hnd, ?_⟩
        intro x hx
        exact hwf.2 x ((hperm.mem_iff).mp hx)
  · intro total
    refine ⟨by rfl, ?_⟩
    intro x
    rw [pyRange_mem]
    omega

/-- Witness for C7 at the expression `"3"` with 10 pages. -/
theorem c7_selection_invariants_witness :
    List.Sorted (· < ·) ([3] : List Int) ∧ ([3] : List Int).Nodup ∧
      ∀ x ∈ ([3] : List Int), 1 ≤ x ∧ x ≤ 10 :=
  c7_selection_invariants.1 "3" 10 [3] (by rfl)

/-! ### C9: summary extraction -/

lemma summaryLines_is_filtered_pre (ls : List String) :
    ∀ cc : Nat, ∃ suffix,
      (ls.filter keepLine).map (fun l => String.mk (pyStrip l.data)) =
        summaryLines ls cc ++ suffix := by
  induction ls with
  | nil => intro cc; exact ⟨[], rfl⟩
  | cons l rest ih =>
    intro cc
    by_cases hcc : 200 < cc
    · refine ⟨(((l :: rest).filter keepLine).map (fun l => String.mk (pyStrip l.data))), ?_⟩
      simp [summaryLines, hcc]
    · by_cases hk : keepLine l = true
      · obtain ⟨suffix, hs⟩ := ih (cc + l.length)
        refine ⟨suffix, ?_⟩
        rw [List.filter_cons_of_pos hk]
        simp only [List.map_cons, hs, summaryLines, if_neg hcc, if_pos hk]
        rfl
      · obtain ⟨suffix, hs⟩ := ih cc
        refine ⟨suffix, ?_⟩
        rw [List.filter_cons_of_neg (by simpa using hk)]
        simp only [hs, summaryLines, if_neg hcc, hk]
        rfl

lemma pyJoin_data_append_pre (sep : String) (ys : List String) :
    ∀ xs : List String, ∃ r, (pyJoin sep (xs ++ ys)).data = (pyJoin sep xs).data ++ r := by
  intro xs
  induction xs with
  | nil => exact ⟨(pyJoin sep ys).data, by simp [pyJoin]⟩
  | cons x tail ih =>
    cases tail with
    | nil =>
      cases ys with
      | nil => exact ⟨[], by simp⟩
      | cons y ys =>
        refine ⟨sep.data ++ (pyJoin sep (y :: ys)).data, ?_⟩
        simp [pyJoin]
    | cons x2 tail2 =>
      obtain ⟨r, hr⟩ := ih
      refine ⟨r, ?_⟩
      simp only [List.cons_append, pyJoin, String.data_append, List.append_assoc]
      simp only [List.cons_append] at hr
      simp only [List.append_eq]
      rw [hr]

/-- C9: `extract_summary` is a total function of the explanation text and
the page number (no model call, cannot fail); its result is the page tag
followed by a body of at most 200 characters which is an initial segment
of the whitespace-join of the stripped non-empty, non-`#` lines of the
input. -/
theorem c9_extract_summary_shape (t : String) (p : Int) :
    ∃ (body : String) (rest : List Char),
      extract_summary t p = "[第" ++ toString p ++ "页摘要] " ++ body ∧
      body.length ≤ 200 ∧
      (pyJoin " " (((pySplit '\n' t).filter keepLine).map
        (fun l => String.mk (pyStrip l.data)))).data = body.data ++ rest := by
  obtain ⟨suffix, hsuf⟩ := summaryLines_is_filtered_pre (pySplit '\n' t) 0
  obtain ⟨r, hr⟩ := pyJoin_data_append_pre " " suffix (summaryLines (pySplit '\n' t) 0)
  refine ⟨pyTake (pyJoin " " (summaryLines (pySplit '\n' t) 0)) 200,
    (pyJoin " " (summaryLines (pySplit '\n' t) 0)).data.drop 200 ++ r, rfl, ?_, ?_⟩
  · show ((pyJoin " " (summaryLines (pySplit '\n' t) 0)).data.take 200).length ≤ 200
    rw [List.length_take]
    exact min_le_left _ _
  · rw [hsuf, hr]
    show (pyJoin " " (summaryLines (pySplit '\n' t) 0)).data ++ r =
      (pyJoin " " (summaryLines (pySplit '\n' t) 0)).data.take 200 ++
        ((pyJoin " " (summaryLines (pySplit '\n' t) 0)).data.drop 200 ++ r)
    rw [← List.append_assoc, List.take_append_drop]
